import Mathlib

/-!
Shallow embedding of the `newslab-serde` crates and proofs about the codecs.

Each definition below is translated from a specific Rust item, named in its
doc comment.  Machine integers (`u64`) are modelled as `Nat` with explicit
reduction modulo `2^64` where the source performs arithmetic that can wrap;
strings handled character-by-character are modelled as `List Char`; floats
that are only compared and scaled (never rounded in a way the claims depend
on) are modelled as `ℚ`; fallible conversions return `Option` or `Except`.
-/

namespace NewslabSerde

instance {ε α : Type} [DecidableEq ε] [DecidableEq α] : DecidableEq (Except ε α)
  | Except.ok a, Except.ok b =>
    if h : a = b then isTrue (by rw [h]) else isFalse (by simp [h])
  | Except.ok _, Except.error _ => isFalse (by simp)
  | Except.error _, Except.ok _ => isFalse (by simp)
  | Except.error e, Except.error e' =>
    if h : e = e' then isTrue (by rw [h]) else isFalse (by simp [h])

/-- `2^64`, the modulus of Rust `u64` arithmetic. -/
def U64 : Nat := 2 ^ 64

/-- Embeds `struct Fraction` from `newslab-serde-num/src/fraction.rs`:
`is_negative : bool`, `num : u64`, `deno : NonZeroU64`. -/
structure Fraction where
  is_negative : Bool
  num : Nat
  deno : Nat
  deriving DecidableEq, Repr

/-- The range and non-zero invariants of the Rust field types `u64` and
`NonZeroU64`. -/
def Fraction.Valid (f : Fraction) : Prop :=
  f.num < U64 ∧ 0 < f.deno ∧ f.deno < U64

instance (f : Fraction) : Decidable f.Valid := by
  unfold Fraction.Valid; infer_instance

/-- The exact rational value a `Fraction` denotes:
`(-1 if is_negative else 1) * num / deno`. -/
def Fraction.ratVal (f : Fraction) : ℚ :=
  (if f.is_negative then -1 else 1) * (f.num : ℚ) / (f.deno : ℚ)

/-- The common tail of `Ord::cmp` and `PartialOrd::partial_cmp` for
`Fraction`: cross-multiplication of the `u64` fields (which wraps modulo
`2^64` in release builds), compared, and reversed when both inputs were
negative. -/
def Fraction.cmpMagnitude (reverse : Bool) (a b : Fraction) : Ordering :=
  let lhs := (a.num * b.deno) % U64
  let rhs := (b.num * a.deno) % U64
  let ord := compare lhs rhs
  if reverse then ord.swap else ord

/-- Embeds `impl Ord for Fraction` (fraction.rs lines 34-52). -/
def Fraction.cmp (a b : Fraction) : Ordering :=
  match a.is_negative, b.is_negative with
  | true, true => Fraction.cmpMagnitude true a b
  | true, false => Ordering.lt
  | false, true => Ordering.gt
  | false, false => Fraction.cmpMagnitude false a b

/-- Rust `u64::partial_cmp`, which always returns `Some` of the total
comparison. -/
def natPartialCmp (x y : Nat) : Option Ordering :=
  some (compare x y)

/-- Embeds `impl PartialOrd for Fraction` (fraction.rs lines 17-32): the
same sign analysis as `cmp`, then `lhs.partial_cmp(&rhs)?` followed by the
optional reversal. -/
def Fraction.partial_cmp (a b : Fraction) : Option Ordering :=
  match a.is_negative, b.is_negative with
  | true, false => some Ordering.lt
  | false, true => some Ordering.gt
  | s, _ =>
    let lhs := (a.num * b.deno) % U64
    let rhs := (b.num * a.deno) % U64
    (natPartialCmp lhs rhs).bind fun ord =>
      some (if s then ord.swap else ord)

/-- Rust `u64::from_str` on a token: an optional leading `+`, then one or
more ASCII digits, value below `2^64`; anything else is an error. -/
def parseU64 (s : List Char) : Option Nat :=
  let s := match s with
    | '+' :: rest => rest
    | _ => s
  if s = [] then none
  else if s.all Char.isDigit then
    let n := s.foldl (fun acc c => acc * 10 + (c.toNat - 48)) 0
    if n < U64 then some n else none
  else none

/-- Rust `NonZeroU64::from_str` on a token: a `u64` that is not zero. -/
def parseNonZeroU64 (s : List Char) : Option Nat :=
  (parseU64 s).bind fun n => if n = 0 then none else some n

/-- Rust `str::split` on a single separator character: `n` separators give
`n + 1` (possibly empty) tokens. -/
def splitChar (sep : Char) : List Char → List (List Char)
  | [] => [[]]
  | c :: rest =>
    match splitChar sep rest with
    | [] => [[]]
    | t :: ts => if c = sep then [] :: t :: ts else (c :: t) :: ts

/-- Embeds `impl FromStr for Fraction` (fraction.rs lines 77-107).  The
source's `match text.strip_prefix('-')` maps a present minus sign to
`is_negative = false` and an absent one to `is_negative = true`; the first
match arm below reproduces that assignment exactly as written.  All error
paths produce the same single format error, modelled as `none`. -/
def Fraction.fromStr (text : List Char) : Option Fraction :=
  let sp : Bool × List Char :=
    match text with
    | '-' :: suffix => (false, suffix)
    | t => (true, t)
  match splitChar '/' sp.2 with
  | [numTok, denoTok] =>
    (parseU64 numTok).bind fun num =>
      (parseNonZeroU64 denoTok).bind fun deno =>
        some ⟨sp.1, num, deno⟩
  | _ => none

/-- Embeds `impl Display for Fraction` (fraction.rs lines 109-119):
`{sign}{num}/{deno}` with `sign = "-"` iff `is_negative`. -/
def Fraction.format (f : Fraction) : List Char :=
  (if f.is_negative then ['-'] else []) ++
    Nat.toDigits 10 f.num ++ ['/'] ++ Nat.toDigits 10 f.deno

/-- Rust `std::ops::Bound`. -/
inductive Bound (T : Type) where
  | unbounded
  | included (val : T)
  | excluded (val : T)
  deriving DecidableEq, Repr

/-- Embeds `struct SerializedBound<T>` from `newslab-serde-common/src/lib.rs`:
the four optional keys are serde-renamed to `">"`, `">="`, `"<"`, `"<="`. -/
structure SerializedBound (T : Type) where
  min : Option T
  imin : Option T
  max : Option T
  imax : Option T
  deriving DecidableEq, Repr

/-- Embeds `fn pack` (lib.rs lines 28-36): combines one side's exclusive and
inclusive keys into a `Bound`, refusing the case where both are present. -/
def pack {T : Type} (bound ibound : Option T) : Option (Bound T) :=
  match bound, ibound with
  | none, none => some Bound.unbounded
  | some val, none => some (Bound.excluded val)
  | none, some val => some (Bound.included val)
  | some _, some _ => none

/-- Embeds `SerializedBound::into_bound` (lib.rs lines 52-66), with the
source's `&'static str` error messages. -/
def SerializedBound.into_bound {T : Type} (s : SerializedBound T) :
    Except String (Bound T × Bound T) :=
  match pack s.min s.imin with
  | none => Except.error "min and imin must not be both specified"
  | some lower =>
    match pack s.max s.imax with
    | none => Except.error "max and imax must not be both specified"
    | some upper => Except.ok (lower, upper)

/-- A 3×3 matrix of reals.  The source stores `R64` (a non-NaN `f64`); the
claims only compare entries with the exactly representable constants `0.0`
and `1.0`, so entries are modelled as `ℚ`. -/
abbrev Mat3 := Matrix (Fin 3) (Fin 3) ℚ

/-- Embeds `pub struct CameraMatrix(pub [[R64; 3]; 3])` from
`newslab-serde-cv/src/camera_matrix.rs`. -/
structure CameraMatrix where
  mat : Mat3
  deriving DecidableEq

/-- `CameraMatrix::fx` (camera_matrix.rs line 36). -/
def CameraMatrix.fx (c : CameraMatrix) : ℚ := c.mat 0 0

/-- `CameraMatrix::fy` (camera_matrix.rs line 40). -/
def CameraMatrix.fy (c : CameraMatrix) : ℚ := c.mat 1 1

/-- `CameraMatrix::cx` (camera_matrix.rs line 44). -/
def CameraMatrix.cx (c : CameraMatrix) : ℚ := c.mat 0 2

/-- `CameraMatrix::cy` (camera_matrix.rs line 48). -/
def CameraMatrix.cy (c : CameraMatrix) : ℚ := c.mat 1 2

/-- Embeds `TryFrom<CameraMatrixUnchecked> for CameraMatrix`
(camera_matrix.rs lines 88-102): the `ensure!` validation of the fixed
zero/one cells. -/
def CameraMatrix.tryFrom (m : Mat3) : Except String CameraMatrix :=
  if m 0 1 = 0 ∧ m 1 0 = 0 ∧ m 2 0 = 0 ∧ m 2 1 = 0 ∧ m 2 2 = 1 then
    Except.ok ⟨m⟩
  else
    Except.error "Condition failed"

/-- Embeds `From<CameraMatrix> for CameraMatrixUnchecked`
(camera_matrix.rs lines 82-86): the encoder simply projects out the array
and cannot fail. -/
def CameraMatrix.intoUnchecked (c : CameraMatrix) : Mat3 := c.mat

/-- Embeds `non_empty_string::serialize` (newslab-serde-common/src/lib.rs
lines 221-229). -/
def nonEmptyStringSerialize (text : String) : Except String String :=
  if text.isEmpty then Except.error "string must not be empty"
  else Except.ok text

/-- Embeds `non_empty_string::deserialize` (newslab-serde-common/src/lib.rs
lines 231-240), after the inner `String::deserialize` has produced `text`. -/
def nonEmptyStringDeserialize (text : String) : Except String String :=
  if text.isEmpty then Except.error "string must not be empty"
  else Except.ok text

/-- Which of the two Rust float renderings a serializer picks: `{}` (fixed
decimal) or `{:e}` (exponential notation). -/
inductive FloatFormat where
  | fixed
  | exponential
  deriving DecidableEq, Repr

/-- Embeds the branch of `angle::serialize`
(newslab-serde-measurements/src/lib.rs lines 97-109): the source tests
`(1e-3..=1e3).contains(&degs)` on the signed degrees value, i.e.
`1e-3 ≤ degs ∧ degs ≤ 1e3`, choosing fixed decimal when it holds and
exponential notation otherwise; both renderings are suffixed `"deg"`. -/
def angleSerializeFormat (degs : ℚ) : FloatFormat :=
  if 1 / 1000 ≤ degs ∧ degs ≤ 1000 then FloatFormat.fixed
  else FloatFormat.exponential

/-- Embeds `ScientificNotation::from_float` (lib.rs lines 288-307), exponent
component: `value.abs().log10().floor()` is `Int.log 10 |v|` for `v ≠ 0`,
and the source returns exponent `0` for zero input. -/
def scientificExponent (v : ℚ) : ℤ :=
  if v = 0 then 0 else Int.log 10 |v|

/-- Embeds `ScientificNotation::from_float`, significand component:
`value / 10^exponent`, with zero mapped to itself. -/
def scientificSignificand (v : ℚ) : ℚ :=
  if v = 0 then v else v / (10 : ℚ) ^ scientificExponent v

/-- The text produced by `length::serialize`: the rendered significand
(fixed or exponential) together with the unit suffix appended to it. -/
inductive LengthText where
  | kmExp (s : ℚ)
  | km (s : ℚ)
  | m (s : ℚ)
  | mm (s : ℚ)
  | um (s : ℚ)
  | nm (s : ℚ)
  | nmExp (s : ℚ)
  deriving DecidableEq, Repr

/-- Embeds `length::serialize` (lib.rs lines 166-200): scientific
decomposition of the meters value, then the exponent-directed cascade of
unit branches, each rescaling the significand as in the source. -/
def lengthSerialize (v : ℚ) : LengthText :=
  if scientificExponent v ≥ 6 then
    LengthText.kmExp (scientificSignificand v * (10 : ℚ) ^ (scientificExponent v - 3))
  else if scientificExponent v ≥ 3 then
    LengthText.km (scientificSignificand v * (10 : ℚ) ^ (scientificExponent v - 3))
  else if scientificExponent v ≥ 0 then
    LengthText.m (scientificSignificand v)
  else if scientificExponent v ≥ -3 then
    LengthText.mm (scientificSignificand v * (10 : ℚ) ^ (scientificExponent v + 3))
  else if scientificExponent v ≥ -6 then
    LengthText.um (scientificSignificand v * (10 : ℚ) ^ (scientificExponent v + 6))
  else if scientificExponent v ≥ -9 then
    LengthText.nm (scientificSignificand v * (10 : ℚ) ^ (scientificExponent v + 9))
  else
    LengthText.nmExp (scientificSignificand v * (10 : ℚ) ^ (scientificExponent v + 9))

/-- The unit suffix of the text produced by `length::serialize`. -/
def LengthText.unitSuffix : LengthText → List Char
  | LengthText.kmExp _ => ['k', 'm']
  | LengthText.km _ => ['k', 'm']
  | LengthText.m _ => ['m']
  | LengthText.mm _ => ['m', 'm']
  | LengthText.um _ => ['µ', 'm']
  | LengthText.nm _ => ['n', 'm']
  | LengthText.nmExp _ => ['n', 'm']

/-- C1: the encode/decode round-trip fails for `Fraction`.  Formatting the
fraction `-1/2` (sign flag set, numerator 1, denominator 2) and parsing the
result yields the fraction with the sign flag CLEAR, not the original value:
`from_str` maps a stripped minus sign to `is_negative = false`. -/
theorem fraction_roundtrip_broken :
    Fraction.fromStr (Fraction.format ⟨true, 1, 2⟩) = some ⟨false, 1, 2⟩
    ∧ (⟨false, 1, 2⟩ : Fraction) ≠ ⟨true, 1, 2⟩ :=
  ⟨by decide, by decide⟩

/-- C2: `Fraction::from_str` returns the INVERTED sign flag: parsing
`"-1/2"` yields `is_negative = false` and parsing `"1/2"` yields
`is_negative = true`, contrary to the claim that a leading minus sets the
flag and its absence clears it. -/
theorem fraction_fromStr_sign_inverted :
    Fraction.fromStr ['-', '1', '/', '2'] = some ⟨false, 1, 2⟩
    ∧ Fraction.fromStr ['1', '/', '2'] = some ⟨true, 1, 2⟩ :=
  ⟨by decide, by decide⟩

/-- C3: `SerializedBound::into_bound` fails exactly when one side has both
its exclusive and inclusive key present; on success, a side with only the
exclusive key is `Excluded`, only the inclusive key is `Included`, neither
key is `Unbounded`; the empty map decodes to `(Unbounded, Unbounded)`. -/
theorem interval_into_bound_spec {T : Type} (s : SerializedBound T) :
    (s.into_bound.isOk = true ↔
      ¬((s.min.isSome ∧ s.imin.isSome) ∨ (s.max.isSome ∧ s.imax.isSome)))
    ∧ (∀ l u, s.into_bound = Except.ok (l, u) →
        (s.min = none → s.imin = none → l = Bound.unbounded)
        ∧ (∀ v, s.min = some v → s.imin = none → l = Bound.excluded v)
        ∧ (∀ v, s.min = none → s.imin = some v → l = Bound.included v)
        ∧ (s.max = none → s.imax = none → u = Bound.unbounded)
        ∧ (∀ v, s.max = some v → s.imax = none → u = Bound.excluded v)
        ∧ (∀ v, s.max = none → s.imax = some v → u = Bound.included v))
    ∧ ((⟨none, none, none, none⟩ : SerializedBound T).into_bound
        = Except.ok (Bound.unbounded, Bound.unbounded)) := by
  obtain ⟨mn, imn, mx, imx⟩ := s
  cases mn <;> cases imn <;> cases mx <;> cases imx <;>
    simp [SerializedBound.into_bound, pack, Except.isOk, Except.toBool]

/-- Witness for C3 at the concrete map `{">": 1, "<=": 7}` over `ℕ`. -/
theorem interval_into_bound_spec_witness :
    ((⟨some 1, none, none, some 7⟩ : SerializedBound ℕ).into_bound.isOk = true)
    ∧ Bound.excluded (1 : ℕ) = Bound.excluded 1 := by
  have h := interval_into_bound_spec (⟨some 1, none, none, some 7⟩ : SerializedBound ℕ)
  refine ⟨h.1.mpr (by decide), ?_⟩
  exact ((h.2.1 (Bound.excluded 1) (Bound.included 7) (by decide)).2.1) 1 rfl rfl

/-- C4 counterexample: the claim says the fixed/exponential choice depends
only on `|d|`, but at `d = -1` (whose absolute value 1 lies inside
`[1e-3, 1e3]`) the encoder picks exponential notation: the source tests the
signed value `degs`, not its absolute value. -/
theorem angle_format_ignores_abs :
    angleSerializeFormat (-1) = FloatFormat.exponential
    ∧ 1 / 1000 ≤ |(-1 : ℚ)| ∧ |(-1 : ℚ)| ≤ 1000 := by
  refine ⟨?_, ?_, ?_⟩
  · unfold angleSerializeFormat
    rw [if_neg]
    norm_num
  · rw [abs_neg, abs_one]; norm_num
  · rw [abs_neg, abs_one]; norm_num

/-- C4 amended: the encoder uses fixed decimal exactly when the SIGNED
degrees value lies in `[1e-3, 1e3]`, and exponential notation otherwise (in
particular every negative angle is rendered in exponential notation). -/
theorem angle_format_signed_range (d : ℚ) :
    angleSerializeFormat d = FloatFormat.fixed ↔ (1 / 1000 ≤ d ∧ d ≤ 1000) := by
  unfold angleSerializeFormat
  split_ifs with h
  · exact iff_of_true rfl h
  · exact iff_of_false (by simp) h

/-- Witness for C4 at `d = 1`. -/
theorem angle_format_signed_range_witness :
    angleSerializeFormat 1 = FloatFormat.fixed :=
  (angle_format_signed_range 1).mpr (by norm_num)

/-- C5 counterexample: encoding the length `1e-5` meters produces the
micrometer suffix `"µm"`, which is not among the four suffixes
`{nm, mm, m, km}` the claim allows. -/
theorem length_encode_emits_micrometers :
    (lengthSerialize (1 / 100000)).unitSuffix = ['µ', 'm']
    ∧ ['µ', 'm'] ∉ [['n', 'm'], ['m', 'm'], ['m'], ['k', 'm']] := by
  have h := @Int.log_zpow ℚ _ _ 10 (by norm_num) (-5)
  norm_num at h
  have he : scientificExponent (1 / 100000) = -5 := by
    rw [scientificExponent, if_neg (by norm_num), abs_of_pos (by norm_num), h]
  constructor
  · unfold lengthSerialize
    rw [he]
    norm_num [LengthText.unitSuffix]
  · decide

/-- C5 amended: the unit suffix emitted by `length::serialize` is always
one of the FIVE suffixes `{nm, µm, mm, m, km}` (the source has a micrometer
branch for decimal exponents in `[-6, -4]`). -/
theorem length_encode_unit_suffixes (v : ℚ) :
    (lengthSerialize v).unitSuffix ∈
      [['n', 'm'], ['µ', 'm'], ['m', 'm'], ['m'], ['k', 'm']] := by
  unfold lengthSerialize
  split_ifs <;> simp [LengthText.unitSuffix]

/-- Witness for C5 at `v = 1`. -/
theorem length_encode_unit_suffixes_witness :
    (lengthSerialize 1).unitSuffix ∈
      [['n', 'm'], ['µ', 'm'], ['m', 'm'], ['m'], ['k', 'm']] :=
  length_encode_unit_suffixes 1

/-- C6: `Ord::cmp` for `Fraction` cross-multiplies the `u64` fields with a
`u64` intermediate, so the products wrap modulo `2^64`: comparing
`2^32/1` (value `2^32`) with `1/2^32` (value `2^-32`) returns `Less`
although the exact rational value of the first is strictly greater — both
operands are valid `u64`/`NonZeroU64` fractions. -/
theorem fraction_cmp_silent_overflow :
    Fraction.cmp ⟨false, 2 ^ 32, 1⟩ ⟨false, 1, 2 ^ 32⟩ = Ordering.lt
    ∧ Fraction.ratVal ⟨false, 1, 2 ^ 32⟩ < Fraction.ratVal ⟨false, 2 ^ 32, 1⟩
    ∧ Fraction.Valid ⟨false, 2 ^ 32, 1⟩ ∧ Fraction.Valid ⟨false, 1, 2 ^ 32⟩ :=
  ⟨by decide, by norm_num [Fraction.ratVal], by decide, by decide⟩

/-- C7: `CameraMatrix` decoding succeeds exactly when the off-diagonal and
bottom-row cells match the projective form (`m[0][1] = m[1][0] = m[2][0] =
m[2][1] = 0`, `m[2][2] = 1`); on success the accessors return
`fx = m[0][0]`, `fy = m[1][1]`, `cx = m[0][2]`, `cy = m[1][2]` and encoding
projects back to the same array (and, being a plain projection, it never
fails). -/
theorem camera_matrix_decode_encode (m : Mat3) :
    ((CameraMatrix.tryFrom m).isOk = true ↔
      (m 0 1 = 0 ∧ m 1 0 = 0 ∧ m 2 0 = 0 ∧ m 2 1 = 0 ∧ m 2 2 = 1))
    ∧ (∀ c, CameraMatrix.tryFrom m = Except.ok c →
        c.fx = m 0 0 ∧ c.fy = m 1 1 ∧ c.cx = m 0 2 ∧ c.cy = m 1 2
          ∧ c.intoUnchecked = m) := by
  unfold CameraMatrix.tryFrom
  split
  · rename_i h
    refine ⟨by simp [h, Except.isOk, Except.toBool], ?_⟩
    rintro c hc
    cases hc
    simp [CameraMatrix.fx, CameraMatrix.fy, CameraMatrix.cx, CameraMatrix.cy,
      CameraMatrix.intoUnchecked]
  · rename_i h
    refine ⟨by simp [h, Except.isOk, Except.toBool], ?_⟩
    rintro c hc
    cases hc

/-- Witness for C7 at the matrix `[[1,0,4],[0,2,7],[0,0,1]]`. -/
theorem camera_matrix_decode_encode_witness :
    ((CameraMatrix.tryFrom !![1, 0, 4; 0, 2, 7; 0, 0, 1]).isOk = true)
    ∧ (⟨!![1, 0, 4; 0, 2, 7; 0, 0, 1]⟩ : CameraMatrix).fx
        = (!![1, 0, 4; 0, 2, 7; 0, 0, 1] : Mat3) 0 0 := by
  have h := camera_matrix_decode_encode (!![1, 0, 4; 0, 2, 7; 0, 0, 1] : Mat3)
  refine ⟨h.1.mpr (by decide), ?_⟩
  exact (h.2 ⟨!![1, 0, 4; 0, 2, 7; 0, 0, 1]⟩ (by decide)).1

/-- C8: the non-empty-string codec rejects `""` in both directions with the
validation error, and passes every non-empty string through unchanged on
both serialize and deserialize. -/
theorem non_empty_string_codec :
    (nonEmptyStringSerialize "" = Except.error "string must not be empty")
    ∧ (nonEmptyStringDeserialize "" = Except.error "string must not be empty")
    ∧ ∀ s : String, s ≠ "" →
        nonEmptyStringSerialize s = Except.ok s
        ∧ nonEmptyStringDeserialize s = Except.ok s := by
  refine ⟨rfl, rfl, fun s hs => ?_⟩
  have hemp : s.isEmpty = false := by
    cases hemp : s.isEmpty
    · rfl
    · exact absurd ((String.isEmpty_iff s).mp hemp) hs
  constructor <;> simp [nonEmptyStringSerialize, nonEmptyStringDeserialize, hemp]

/-- Witness for C8 at the string `"x"`. -/
theorem non_empty_string_codec_witness :
    nonEmptyStringSerialize "x" = Except.ok "x"
    ∧ nonEmptyStringDeserialize "x" = Except.ok "x" :=
  non_empty_string_codec.2.2 "x" (by decide)

/-- C9: `PartialOrd::partial_cmp` for `Fraction` always returns `Some` of
exactly the ordering `Ord::cmp` returns, on every pair of fractions: the
two independently written comparisons are equivalent and the order is
total. -/
theorem fraction_partial_cmp_agrees_with_cmp (a b : Fraction) :
    Fraction.partial_cmp a b = some (Fraction.cmp a b) := by
  obtain ⟨an, anum, ad⟩ := a
  obtain ⟨bn, bnum, bd⟩ := b
  cases an <;> cases bn <;> rfl

/-- Witness for C9 at the pair `-3/4`, `5/6`. -/
theorem fraction_partial_cmp_agrees_with_cmp_witness :
    Fraction.partial_cmp ⟨true, 3, 4⟩ ⟨false, 5, 6⟩
      = some (Fraction.cmp ⟨true, 3, 4⟩ ⟨false, 5, 6⟩) :=
  fraction_partial_cmp_agrees_with_cmp ⟨true, 3, 4⟩ ⟨false, 5, 6⟩

/-- C10: the sign flag decides the comparison before any magnitude is
looked at: whenever `a` has the flag set and `b` does not, `cmp a b` is
`Less` (and `cmp b a` is `Greater`), regardless of the numerators — in
particular for numerator-zero fractions whose numeric values are equal. -/
theorem fraction_negative_flag_dominates (a b : Fraction)
    (ha : a.is_negative = true) (hb : b.is_negative = false) :
    Fraction.cmp a b = Ordering.lt ∧ Fraction.cmp b a = Ordering.gt := by
  obtain ⟨an, anum, ad⟩ := a
  obtain ⟨bn, bnum, bd⟩ := b
  simp only at ha hb
  subst ha hb
  exact ⟨rfl, rfl⟩

/-- Witness for C10 at `-0/1` versus `+0/2`: both have rational value `0`,
yet the flagged one compares strictly below. -/
theorem fraction_negative_flag_dominates_witness :
    Fraction.cmp ⟨true, 0, 1⟩ ⟨false, 0, 2⟩ = Ordering.lt
    ∧ Fraction.ratVal ⟨true, 0, 1⟩ = 0 ∧ Fraction.ratVal ⟨false, 0, 2⟩ = 0 := by
  refine ⟨(fraction_negative_flag_dominates ⟨true, 0, 1⟩ ⟨false, 0, 2⟩ rfl rfl).1, ?_, ?_⟩
  · norm_num [Fraction.ratVal]
  · norm_num [Fraction.ratVal]

end NewslabSerde
